import Mathlib

/-!
Verification of the cooperative task scheduler in `src/parallax.hpp`.

The scheduler keeps a singly linked list of `ScheduledTask` nodes headed by a
global pointer `head`.  `execute(task, duration)` allocates a node capturing
`millis()` as `startTime` and pushes it at the front of the list.  `update()`
reads `millis()` once into `currentTime` and walks the list through an
indirect pointer: a node with `currentTime - startTime < duration` (unsigned
long arithmetic) has its task invoked and is kept, any other node is unlinked
and deleted.

Embedding choices:
* `unsigned long` is 32 bits on the Arduino targets of this header
  (`millis()` wraps after about 50 days, as the file's own comment says), so
  clock values are natural numbers reduced modulo `UL_MOD = 2 ^ 32` and the
  subtraction at line 103 is `usub`.
* the linked list is a Lean `List`, front first; `delete` is removal from the
  list, `new` is consing.
* a `Task` is identified by its address, a `Nat`; invoking it is observable
  through the list of identities `update` invokes, in invocation order.
* reentrancy: a task body may itself call `execute`.  The environment
  `env : Nat → List ScheduledTask` gives, for each task identity, the entries
  its invocation schedules, in the order of its `execute` calls.  Each
  `execute` pushes at the global head, which at every point of the scan lies
  at or before the scan position, so freshly scheduled entries pile up in
  front of the part of the list already processed and are not visited by the
  running call.  `updateScan` returns those inserted entries, the kept
  entries, and the invoked identities; `update` reassembles the final list.
* the wrapper class `Task` holding a `std::function` is modelled over an
  abstract state type: an empty `std::function` raises on a direct call,
  which the wrapper's `operator()` avoids by testing the callable first.
-/

namespace parallax

/-- Modulus of the 32-bit Arduino `unsigned long`, the type of `millis()`
readings, of `startTime` and of `duration`: 2 ^ 32. -/
def UL_MOD : Nat := 4294967296

/-- Fixed-width unsigned subtraction `a - b` on `unsigned long`, the
arithmetic performed at line 103 of the source. -/
def usub (a b : Nat) : Nat :=
  (a % UL_MOD + (UL_MOD - b % UL_MOD)) % UL_MOD

/-- One node of the scheduler's linked list (`struct ScheduledTask`).  The
`next` pointer is the position in the ambient Lean list; `task` is the
identity (address) of the registered task. -/
structure ScheduledTask where
  task : Nat
  startTime : Nat
  duration : Nat
deriving DecidableEq

/-- Liveness test of line 103: `currentTime - current->startTime <
current->duration` in `unsigned long` arithmetic. -/
def live (currentTime : Nat) (e : ScheduledTask) : Bool :=
  usub currentTime e.startTime < e.duration

/-- Embedding of `execute` (lines 68-89): allocate a node with the given
fields and push it at the list head; `now` is the `millis()` reading made by
the call.  Both branches of the source's empty test are kept. -/
def execute (task now duration : Nat) (head : List ScheduledTask) :
    List ScheduledTask :=
  let newTask : ScheduledTask :=
    { task := task, startTime := now, duration := duration }
  if head = [] then [newTask] else newTask :: head

/-- Version of `execute` that performs its `millis()` read explicitly:
`clock` is the stream of values successive reads return and `n` counts the
reads already made. -/
def executeClocked (clock : Nat → Nat) (n : Nat) (task duration : Nat)
    (head : List ScheduledTask) : List ScheduledTask × Nat :=
  (execute task (clock n) duration head, n + 1)

/-- Scan loop of `update` (lines 98-114) over the part of the list not yet
visited, at clock snapshot `ct`.  Returns the entries freshly scheduled by
invoked tasks (front first — each reentrant `execute` pushes at the global
head, in front of everything already scanned), the kept entries, and the
invoked task identities in invocation order. -/
def updateScan (env : Nat → List ScheduledTask) (ct : Nat) :
    List ScheduledTask → List ScheduledTask × List ScheduledTask × List Nat
  | [] => ([], [], [])
  | e :: rest =>
    if live ct e then
      let r := updateScan env ct rest
      (r.1 ++ (env e.task).reverse, e :: r.2.1, e.task :: r.2.2)
    else
      updateScan env ct rest

/-- Embedding of `update` (lines 92-115) at clock snapshot `ct`: the list
left in `head` when the call returns, and the task identities invoked. -/
def update (env : Nat → List ScheduledTask) (ct : Nat)
    (head : List ScheduledTask) : List ScheduledTask × List Nat :=
  ((updateScan env ct head).1 ++ (updateScan env ct head).2.1,
   (updateScan env ct head).2.2)

/-- Environment of tasks that do not reschedule anything. -/
def noReentry : Nat → List ScheduledTask := fun _ => []

/-- Version of `update` that performs its single `millis()` read explicitly:
line 93 reads the clock once, before the loop, and the loop only uses the
snapshot. -/
def updateClocked (clock : Nat → Nat) (n : Nat)
    (head : List ScheduledTask) : (List ScheduledTask × List Nat) × Nat :=
  let currentTime := clock n
  (update noReentry currentTime head, n + 1)

/-- Entries freshly scheduled during one `update` call, in the front-first
order they end up occupying before the kept entries. -/
def insertedDuring (env : Nat → List ScheduledTask) (ct : Nat) :
    List ScheduledTask → List ScheduledTask
  | [] => []
  | e :: rest =>
    if live ct e then insertedDuring env ct rest ++ (env e.task).reverse
    else insertedDuring env ct rest

/-- Wrapper class `Task` (lines 25-40): holds an optional callable over an
abstract state type `σ`. -/
structure Task (σ : Type) where
  function : Option (σ → σ)

/-- Direct invocation of a `std::function`: calling an empty one is the
error `std::bad_function_call`. -/
def stdFunctionCall {σ : Type} (f : Option (σ → σ)) (s : σ) :
    Except Unit σ :=
  match f with
  | some g => Except.ok (g s)
  | none => Except.error ()

/-- Embedding of `Task::operator()` (lines 32-36): the callable is invoked
only after the `if (function)` test. -/
def Task.call {σ : Type} (t : Task σ) (s : σ) : Except Unit σ :=
  match t.function with
  | some _ => stdFunctionCall t.function s
  | none => Except.ok s

/-- Characterisation of the scan loop: the inserted entries are
`insertedDuring`, the kept entries are exactly the live ones in order, and
the invoked identities are theirs. -/
theorem updateScan_eq (env : Nat → List ScheduledTask) (ct : Nat)
    (l : List ScheduledTask) :
    updateScan env ct l =
      (insertedDuring env ct l,
       l.filter (fun e => live ct e),
       (l.filter (fun e => live ct e)).map (fun e => e.task)) := by
  induction l with
  | nil => rfl
  | cons e rest ih =>
    cases h : live ct e <;>
      simp [updateScan, insertedDuring, h, ih, List.filter_cons]

/-- Unfolding of `update` through `updateScan_eq`. -/
theorem update_eq (env : Nat → List ScheduledTask) (ct : Nat)
    (l : List ScheduledTask) :
    update env ct l =
      (insertedDuring env ct l ++ l.filter (fun e => live ct e),
       (l.filter (fun e => live ct e)).map (fun e => e.task)) := by
  simp [update, updateScan_eq]

/-- Both branches of `execute` push the new node at the front. -/
theorem execute_eq (task now duration : Nat) (head : List ScheduledTask) :
    execute task now duration head =
      { task := task, startTime := now, duration := duration } :: head := by
  cases head <;> simp [execute]

/-- Unsigned subtraction recovers the true elapsed time across at most one
wraparound: if the clock has advanced by `e < 2 ^ 32` ticks since `s` was
read, `usub` of the wrapped current reading and `s` is `e`. -/
theorem usub_elapsed (s e : Nat) (he : e < UL_MOD) :
    usub ((s + e) % UL_MOD) s = e := by
  simp only [usub, UL_MOD] at *
  omega

/-- Splitting `insertedDuring` over an append: later entries of the list are
scanned later, so their freshly scheduled entries sit further to the front. -/
theorem insertedDuring_append (env : Nat → List ScheduledTask) (ct : Nat)
    (a b : List ScheduledTask) :
    insertedDuring env ct (a ++ b) =
      insertedDuring env ct b ++ insertedDuring env ct a := by
  induction a with
  | nil => simp [insertedDuring]
  | cons e rest ih =>
    cases h : live ct e <;> simp [insertedDuring, h, ih]

/-- Tasks that schedule nothing insert nothing. -/
theorem insertedDuring_noReentry (ct : Nat) (l : List ScheduledTask) :
    insertedDuring noReentry ct l = [] := by
  induction l with
  | nil => rfl
  | cons e rest ih =>
    cases h : live ct e <;> simp [insertedDuring, noReentry, h, ih]

/-- Counting one task identity among the invocations equals counting the
live entries carrying that identity. -/
theorem count_invocations (t ct : Nat) (l : List ScheduledTask) :
    ((l.filter (fun e => live ct e)).map (fun e => e.task)).count t =
      (l.filter (fun e => live ct e && e.task == t)).length := by
  induction l with
  | nil => rfl
  | cons e rest ih =>
    cases hl : live ct e
    · simp [List.filter_cons, hl, ih]
    · by_cases ht : e.task = t
      · simp [List.filter_cons, hl, ht, List.count_cons, ih]
      · simp [List.filter_cons, hl, ht, List.count_cons, ih]

/-- C1: elapsed time is fixed-width unsigned subtraction, so an entry
admitted before one wraparound and checked after it is tested against its
true elapsed time: generally, after a true advance of `e < 2 ^ 32` ticks the
line-103 test compares `e` against the duration; concretely, the entry with
`startTime = 2 ^ 32 - 5` and `duration = 10` is invoked at
`currentTime = 2 ^ 32 - 1` (elapsed 4) and again at `currentTime = 3`
(elapsed 8), and expires at true elapsed 10. -/
theorem elapsed_wraparound_correct (t s d e : Nat) (he : e < UL_MOD) :
    (usub ((s + e) % UL_MOD) s = e ∧
      live ((s + e) % UL_MOD) ⟨t, s, d⟩ = decide (e < d)) ∧
    usub (UL_MOD - 1) (UL_MOD - 5) = 4 ∧
    update noReentry (UL_MOD - 1) [⟨0, UL_MOD - 5, 10⟩] =
      ([⟨0, UL_MOD - 5, 10⟩], [0]) ∧
    usub 3 (UL_MOD - 5) = 8 ∧
    update noReentry 3 [⟨0, UL_MOD - 5, 10⟩] =
      ([⟨0, UL_MOD - 5, 10⟩], [0]) ∧
    usub 5 (UL_MOD - 5) = 10 ∧
    update noReentry 5 [⟨0, UL_MOD - 5, 10⟩] = ([], []) := by
  refine ⟨⟨usub_elapsed s e he, ?_⟩, by decide, by decide, by decide,
    by decide, by decide, by decide⟩
  simp only [live]
  rw [usub_elapsed s e he]

/-- Witness for C1 at `s = 2 ^ 32 - 5`, `e = 4`, `d = 10`. -/
theorem elapsed_wraparound_correct_witness :
    4 < UL_MOD ∧
    ((usub ((UL_MOD - 5 + 4) % UL_MOD) (UL_MOD - 5) = 4 ∧
        live ((UL_MOD - 5 + 4) % UL_MOD) ⟨0, UL_MOD - 5, 10⟩ =
          decide (4 < 10)) ∧
      usub (UL_MOD - 1) (UL_MOD - 5) = 4 ∧
      update noReentry (UL_MOD - 1) [⟨0, UL_MOD - 5, 10⟩] =
        ([⟨0, UL_MOD - 5, 10⟩], [0]) ∧
      usub 3 (UL_MOD - 5) = 8 ∧
      update noReentry 3 [⟨0, UL_MOD - 5, 10⟩] =
        ([⟨0, UL_MOD - 5, 10⟩], [0]) ∧
      usub 5 (UL_MOD - 5) = 10 ∧
      update noReentry 5 [⟨0, UL_MOD - 5, 10⟩] = ([], [])) :=
  ⟨by decide, elapsed_wraparound_correct 0 (UL_MOD - 5) 10 4 (by decide)⟩

/-- C2: at one `update` call's snapshot, the kept entries are exactly the
entries whose elapsed time is below their duration, in order, and the
invocation list carries exactly one invocation per kept entry, in that same
order — expired entries are removed and contribute no invocation. -/
theorem tick_invokes_live_once_removes_expired
    (env : Nat → List ScheduledTask) (ct : Nat) (l : List ScheduledTask) :
    (updateScan env ct l).2.1 = l.filter (fun e => live ct e) ∧
    (updateScan env ct l).2.2 =
      (l.filter (fun e => live ct e)).map (fun e => e.task) := by
  simp [updateScan_eq]

/-- C3: `update` makes exactly one clock read, before the scan, and the
whole call depends only on that single reading: two clock streams agreeing
on reading `n` give identical calls, the read counter advances by one, and
the result is the pure `update` at the snapshot. -/
theorem tick_single_clock_snapshot (clock clock2 : Nat → Nat) (n : Nat)
    (l : List ScheduledTask) (h : clock n = clock2 n) :
    updateClocked clock n l = updateClocked clock2 n l ∧
    (updateClocked clock n l).2 = n + 1 ∧
    (updateClocked clock n l).1 = update noReentry (clock n) l := by
  simp [updateClocked, h]

/-- Witness for C3 with two clock streams that agree at read 0 only. -/
theorem tick_single_clock_snapshot_witness :
    (fun k => 7 + k) 0 = (fun _ : Nat => 7) 0 ∧
    (updateClocked (fun k => 7 + k) 0 [⟨0, 2, 9⟩] =
        updateClocked (fun _ => 7) 0 [⟨0, 2, 9⟩] ∧
      (updateClocked (fun k => 7 + k) 0 [⟨0, 2, 9⟩]).2 = 0 + 1 ∧
      (updateClocked (fun k => 7 + k) 0 [⟨0, 2, 9⟩]).1 =
        update noReentry ((fun k => 7 + k) 0) [⟨0, 2, 9⟩]) :=
  ⟨rfl, tick_single_clock_snapshot (fun k => 7 + k) (fun _ => 7) 0
    [⟨0, 2, 9⟩] rfl⟩

/-- C4: a zero-duration entry is never live, so whatever surrounds it in the
list, the first `update` call removes it without invoking it: the call
behaves exactly as if the entry were absent. -/
theorem zero_duration_expires_uninvoked (env : Nat → List ScheduledTask)
    (ct t s : Nat) (l1 l2 : List ScheduledTask) :
    live ct ⟨t, s, 0⟩ = false ∧
    update env ct (l1 ++ ⟨t, s, 0⟩ :: l2) = update env ct (l1 ++ l2) := by
  have hdead : live ct ⟨t, s, 0⟩ = false := by simp [live]
  refine ⟨hdead, ?_⟩
  simp [update_eq, insertedDuring_append, insertedDuring, hdead,
    List.filter_append, List.filter_cons]

/-- C5: after any `update` call every remaining entry is live at that call's
snapshot; a list of entries all expired at the snapshot is emptied in one
call with no invocation, and on the empty list `update` invokes nothing. -/
theorem no_expired_entry_persists (ct ct2 : Nat) (l : List ScheduledTask)
    (h : ∀ e ∈ l, live ct e = false) :
    (∀ l2 : List ScheduledTask,
        ((update noReentry ct l2).1).all (fun e => live ct e) = true) ∧
    update noReentry ct l = ([], []) ∧
    update noReentry ct2 [] = ([], []) := by
  refine ⟨?_, ?_, rfl⟩
  · intro l2
    simp only [update_eq, insertedDuring_noReentry, List.nil_append,
      List.all_eq_true]
    intro e he
    exact (List.mem_filter.mp he).2
  · have : l.filter (fun e => live ct e) = [] := by
      rw [List.filter_eq_nil_iff]
      intro a ha
      simp [h a ha]
    simp [update_eq, insertedDuring_noReentry, this]

/-- Witness for C5: one already-expired entry at snapshot 0. -/
theorem no_expired_entry_persists_witness :
    (∀ e ∈ [(⟨0, 0, 0⟩ : ScheduledTask)], live 0 e = false) ∧
    ((∀ l2 : List ScheduledTask,
        ((update noReentry 0 l2).1).all (fun e => live 0 e) = true) ∧
      update noReentry 0 [⟨0, 0, 0⟩] = ([], []) ∧
      update noReentry 7 [] = ([], [])) :=
  ⟨by decide, no_expired_entry_persists 0 7 [⟨0, 0, 0⟩] (by decide)⟩

/-- C6: `execute` pushes exactly one new entry at the front, with the
clock reading of the call as `startTime` and the argument as `duration`,
leaving every earlier entry, its fields and their relative order untouched,
and makes exactly one clock read. -/
theorem execute_pushes_one_entry (clock : Nat → Nat) (n t d : Nat)
    (l : List ScheduledTask) :
    executeClocked clock n t d l =
      ({ task := t, startTime := clock n, duration := d } :: l, n + 1) ∧
    (executeClocked clock n t d l).1.length = l.length + 1 := by
  simp [executeClocked, execute_eq]

/-- C7: whatever combination of entries expires in one call — sole entry,
head, middle or tail — the kept list is exactly the live entries in their
original order, and a subsequent call still invokes each of them once while
it remains live. -/
theorem removal_keeps_live_entries_linked (env : Nat → List ScheduledTask)
    (ct ct2 : Nat) (l : List ScheduledTask) :
    (updateScan env ct l).2.1 = l.filter (fun e => live ct e) ∧
    (update noReentry ct2 (l.filter (fun e => live ct e))).2 =
      ((l.filter (fun e => live ct e)).filter (fun e => live ct2 e)).map
        (fun e => e.task) := by
  simp [updateScan_eq, update_eq]

/-- C8: `Task::operator()` never reaches the error of calling an empty
`std::function`: it returns normally for every task, and on an empty task it
leaves the state unchanged. -/
theorem task_empty_call_is_noop {σ : Type} (t : Task σ) (s : σ) :
    t.call s = Except.ok (t.function.elim s (fun g => g s)) ∧
    Task.call { function := none } s = Except.ok s := by
  obtain ⟨f⟩ := t
  cases f <;> simp [Task.call, stdFunctionCall]

/-- C9: entries scheduled from inside task bodies during an `update` call
are never invoked by that call — the invocations are those of the
pre-existing live entries, independent of what the tasks schedule — and they
end up at the front of the list, before the kept entries, ready for the next
call. -/
theorem reentrant_entries_deferred (env : Nat → List ScheduledTask)
    (ct : Nat) (l : List ScheduledTask) :
    (update env ct l).2 = (update noReentry ct l).2 ∧
    (update env ct l).1 =
      insertedDuring env ct l ++ (update noReentry ct l).1 := by
  simp [update_eq, insertedDuring_noReentry]

/-- C10: scheduling the same task `N` times yields `N` distinct entries with
no deduplication, and one `update` call invokes a task identity once per
live entry carrying it — each entry expiring by its own fields alone. -/
theorem same_task_entries_independent (env : Nat → List ScheduledTask)
    (ct t : Nat) (ps : List (Nat × Nat)) (l : List ScheduledTask) :
    (ps.foldl (fun acc p => execute t p.1 p.2 acc) l).length =
      l.length + ps.length ∧
    ((update env ct l).2).count t =
      (l.filter (fun e => live ct e && e.task == t)).length := by
  constructor
  · induction ps generalizing l with
    | nil => simp
    | cons p rest ih =>
      rw [List.foldl_cons, ih, execute_eq]
      simp only [List.length_cons]
      omega
  · simp [update_eq, count_invocations]

end parallax
